import Mathlib

/-!
# Verification of the Berth VS Code extension's virtual filesystem adapter

A shallow embedding of the Berth extension (TypeScript) in Lean 4:

* `splitPath`, `jsParseInt` — the URI parsing steps used throughout
  `src/providers/BerthFileSystemProvider.ts`
  (`uri.path.split('/').filter(p => p.length > 0)` and `parseInt(uri.authority)`).
* `utf8Decode` / `utf8Encode` — the platform `TextDecoder('utf-8')` (replacement
  mode) and `TextEncoder` used by `writeFileContent` / `readFileContent`.
* `BerthFileSystemProvider.*` — the filesystem adapter operations, with the
  remote `FilesService` calls abstracted as an environment of response
  functions, and the list of issued client calls recorded as a trace.
* `FilesService.listDirectory` normalization of raw JSON entries.
* `AuthService.logout` over an explicit auth/secret-storage state.
* The `setCurrentServer` / `setCurrentStack` selection updates of the two tree
  data providers and the `selectServer` command.
-/

/-! ## URI path splitting

`uri.path.split('/').filter(part => part.length > 0)`: the result is exactly
the list of maximal non-empty runs of non-`'/'` characters, which is what
`splitPathAux` computes directly. -/

/-- Accumulator-based splitter: `acc` holds the (reversed) characters of the
current segment. -/
def splitPathAux : List Char → List Char → List String
  | [], acc => if acc.isEmpty then [] else [String.mk acc.reverse]
  | c :: rest, acc =>
    if c = '/' then
      if acc.isEmpty then splitPathAux rest []
      else String.mk acc.reverse :: splitPathAux rest []
    else splitPathAux rest (c :: acc)

/-- Model of `uri.path.split('/').filter(part => part.length > 0)`. -/
def splitPath (s : String) : List String :=
  splitPathAux s.toList []

/-! ## JavaScript `parseInt`

`parseInt(s)` (radix unspecified): skip leading whitespace, read an optional
sign, auto-detect a `0x`/`0X` prefix as radix 16 (otherwise radix 10), then
take the longest prefix of digits; `NaN` (here `none`) when there is none. -/

/-- JavaScript whitespace accepted by `parseInt` (the common characters). -/
def jsIsWhitespace (c : Char) : Bool :=
  c = ' ' || c = '\t' || c = '\n' || c = '\r' || c = '\x0b' || c = '\x0c'

/-- Value of a digit character in the given base, when it is one. -/
def digitValue (base : Nat) (c : Char) : Option Nat :=
  let v :=
    if '0' ≤ c ∧ c ≤ '9' then some (c.toNat - '0'.toNat)
    else if 'a' ≤ c ∧ c ≤ 'z' then some (c.toNat - 'a'.toNat + 10)
    else if 'A' ≤ c ∧ c ≤ 'Z' then some (c.toNat - 'A'.toNat + 10)
    else none
  match v with
  | some n => if n < base then some n else none
  | none => none

/-- Digits of the longest valid prefix in the given base. -/
def takeDigits (base : Nat) : List Char → List Nat
  | [] => []
  | c :: rest =>
    match digitValue base c with
    | some n => n :: takeDigits base rest
    | none => []

/-- Model of JavaScript `parseInt(s)` with no radix argument; `none` is `NaN`. -/
def jsParseInt (s : String) : Option Int :=
  let cs := s.toList.dropWhile jsIsWhitespace
  let (sign, cs1) : Int × List Char :=
    match cs with
    | '-' :: t => (-1, t)
    | '+' :: t => (1, t)
    | t => (1, t)
  let (base, cs2) : Nat × List Char :=
    match cs1 with
    | '0' :: 'x' :: t => (16, t)
    | '0' :: 'X' :: t => (16, t)
    | t => (10, t)
  let ds := takeDigits base cs2
  if ds.isEmpty then none
  else some (sign * (ds.foldl (fun a d => a * base + d) 0 : Nat))

/-! ## UTF-8 text codec

`writeFileContent` runs the file bytes through `new TextDecoder().decode(...)`
(UTF-8, replacement mode: every maximal invalid subsequence becomes U+FFFD),
and `readFileContent` runs the returned string through
`new TextEncoder().encode(...)`. Text is modelled as a list of Unicode scalar
values (`Nat`), bytes as a list of `Nat`. -/

/-- A Unicode scalar value: a code point that is not a surrogate. -/
def IsValidScalar (c : Nat) : Prop :=
  c < 0xD800 ∨ (0xE000 ≤ c ∧ c < 0x110000)

instance (c : Nat) : Decidable (IsValidScalar c) := by
  unfold IsValidScalar; infer_instance

/-- UTF-8 encoding of one scalar value (`TextEncoder` on one character). -/
def encodeChar (c : Nat) : List Nat :=
  if c < 0x80 then [c]
  else if c < 0x800 then [0xC0 + c / 64, 0x80 + c % 64]
  else if c < 0x10000 then
    [0xE0 + c / 4096, 0x80 + (c / 64) % 64, 0x80 + c % 64]
  else
    [0xF0 + c / 262144, 0x80 + (c / 4096) % 64, 0x80 + (c / 64) % 64,
      0x80 + c % 64]

/-- Model of `new TextEncoder().encode(text)`. -/
def utf8Encode : List Nat → List Nat
  | [] => []
  | c :: t => encodeChar c ++ utf8Encode t

/-- Decoder state of the WHATWG UTF-8 decoder: the accumulated code point,
how many continuation bytes are still needed (`0` = between characters), and
the bounds the next continuation byte must satisfy. -/
structure Utf8State where
  acc : Nat
  needed : Nat
  lo : Nat
  hi : Nat
deriving DecidableEq

/-- The decoder's initial (between characters) state. -/
def utf8Init : Utf8State := ⟨0, 0, 0x80, 0xBF⟩

/-- Handle one byte in the initial state: ASCII is emitted, a lead byte opens
a multi-byte sequence with its continuation bounds, anything else is invalid
and becomes U+FFFD. -/
def utf8StartByte (b : Nat) : Utf8State × List Nat :=
  if b < 0x80 then (utf8Init, [b])
  else if b < 0xC2 then (utf8Init, [0xFFFD])
  else if b < 0xE0 then (⟨b - 0xC0, 1, 0x80, 0xBF⟩, [])
  else if b < 0xF0 then
    (⟨b - 0xE0, 2, if b = 0xE0 then 0xA0 else 0x80,
      if b = 0xED then 0x9F else 0xBF⟩, [])
  else if b < 0xF5 then
    (⟨b - 0xF0, 3, if b = 0xF0 then 0x90 else 0x80,
      if b = 0xF4 then 0x8F else 0xBF⟩, [])
  else (utf8Init, [0xFFFD])

/-- Handle one byte: mid-sequence, a continuation byte inside the bounds is
accumulated; a byte outside them emits U+FFFD and is reconsidered as a fresh
start byte. -/
def utf8Step (st : Utf8State) (b : Nat) : Utf8State × List Nat :=
  if st.needed = 0 then utf8StartByte b
  else if st.lo ≤ b ∧ b ≤ st.hi then
    (if st.needed = 1 then (utf8Init, [st.acc * 64 + (b - 0x80)])
     else (⟨st.acc * 64 + (b - 0x80), st.needed - 1, 0x80, 0xBF⟩, []))
  else
    ((utf8StartByte b).1, 0xFFFD :: (utf8StartByte b).2)

/-- Run the decoder from a given state; a truncated final sequence becomes one
U+FFFD. -/
def utf8DecodeA (st : Utf8State) : List Nat → List Nat
  | [] => if st.needed = 0 then [] else [0xFFFD]
  | b :: rest => (utf8Step st b).2 ++ utf8DecodeA (utf8Step st b).1 rest

/-- Model of `new TextDecoder().decode(bytes)`: the WHATWG UTF-8 decoder in
replacement mode. Every maximal invalid subsequence becomes one U+FFFD and
decoding resumes at the offending byte. -/
def utf8Decode (bytes : List Nat) : List Nat :=
  utf8DecodeA utf8Init bytes

deriving instance DecidableEq for Except

/-! ## Data model of the adapter and its collaborators

`vscode.Uri` is reduced to the two components the provider reads: the
authority (server id string) and the path. The remote `FilesService` is
abstracted as an environment of response functions (`Env`), and every
provider operation returns its result together with the list of client calls
it issued, so that "no network call is made" is a provable statement. -/

/-- The two components of a `vscode.Uri` the provider reads. -/
structure Uri where
  authority : String
  path : String
deriving DecidableEq

/-- `vscode.FileType` (the two values the provider produces). -/
inductive FileType
  | File
  | Directory
deriving DecidableEq

/-- `vscode.FileStat`. -/
structure FileStat where
  type : FileType
  ctime : Int
  mtime : Int
  size : Nat
deriving DecidableEq

/-- The normalized `FileEntry` shape of `src/types/index.ts` /
`FilesService.ts`. -/
structure FileEntry where
  name : String
  path : String
  isDirectory : Bool
  size : Nat
  displaySize : String
  modTime : String
  mode : String
  ownerId : Option Int
  groupId : Option Int
  owner : Option String
  group : Option String
  extension : Option String
deriving DecidableEq

/-- `DirectoryListing` of `src/types/index.ts`. -/
structure DirectoryListing where
  path : String
  entries : List FileEntry
deriving DecidableEq

/-- `FileContent` of `src/types/index.ts`; the `content` string is a list of
Unicode scalar values. -/
structure FileContent where
  path : String
  content : List Nat
  encoding : String
  size : Nat
deriving DecidableEq

/-- The errors the provider throws: the three `vscode.FileSystemError`
constructors it uses, and `generic` for a plain `new Error(message)`. -/
inductive FsError
  | Unavailable (msg : String)
  | FileNotFound (uri : Uri)
  | FileIsADirectory (uri : Uri)
  | generic (msg : String)
deriving DecidableEq

/-- One call into the `FilesService` client (hence one HTTP request). -/
inductive NetCall
  | listDirectory (serverId : Int) (stackName : String) (path : Option String)
  | readFile (serverId : Int) (stackName : String) (path : String)
  | writeFile (serverId : Int) (stackName : String) (path : String)
      (content : List Nat)
  | createDirectory (serverId : Int) (stackName : String) (path : String)
  | deleteFile (serverId : Int) (stackName : String) (path : String)
  | renameFile (serverId : Int) (stackName : String)
      (oldPath newPath : String)
deriving DecidableEq

/-- The provider's environment: the `ApiClient` auth token, `Date.now()`,
`new Date(s).getTime()`, and the backend's response to each `FilesService`
call (`Except.error msg` models the service throwing `new Error(msg)`). -/
structure Env where
  authToken : Option String
  now : Int
  parseDate : String → Int
  listDirectory : Int → String → Option String → Except String DirectoryListing
  readFile : Int → String → String → Except String FileContent
  writeFile : Int → String → String → List Nat → Except String Unit
  createDirectory : Int → String → String → Except String Unit
  deleteFile : Int → String → String → Except String Unit
  renameFile : Int → String → String → String → Except String Unit

/-! ## The filesystem adapter (`BerthFileSystemProvider.ts`) -/

namespace BerthFileSystemProvider

/-- `pathParts[0]`. -/
def stackNameOf (parts : List String) : String := parts.headD ""

/-- `pathParts.slice(1).join('/')`. -/
def relPathOf (parts : List String) : String :=
  String.intercalate "/" (parts.drop 1)

/-- `dirPath || undefined` passed to `FilesService.listDirectory`. -/
def relPathArgOf (parts : List String) : Option String :=
  if relPathOf parts = "" then none else some (relPathOf parts)

/-- `pathParts.slice(1, -1).join('/')` then `parentPath || undefined`. -/
def parentArgOf (parts : List String) : Option String :=
  let parentPath := String.intercalate "/" ((parts.drop 1).dropLast)
  if parentPath = "" then none else some parentPath

/-- `pathParts[pathParts.length - 1]`. -/
def fileNameOf (parts : List String) : String := parts.getLastD ""

/-- `this.apiClient.getAuthToken() !== null`. -/
def isAuthenticated (env : Env) : Bool := env.authToken.isSome

/-- `getFileStat`: stack roots are synthesized directories; other paths are
looked up in the parent's listing; the catch-all turns every failure into
`FileSystemError.FileNotFound(uri)`. -/
def getFileStat (env : Env) (uri : Uri) :
    Except FsError FileStat × List NetCall :=
  let pathParts := splitPath uri.path
  if pathParts.length < 1 then (.error (.FileNotFound uri), [])
  else
    match jsParseInt uri.authority with
    | none => (.error (.FileNotFound uri), [])
    | some serverId =>
      let stackName := stackNameOf pathParts
      if pathParts.length = 1 then
        (.ok ⟨.Directory, env.now, env.now, 0⟩, [])
      else
        let parentArg := parentArgOf pathParts
        let fileName := fileNameOf pathParts
        match env.listDirectory serverId stackName parentArg with
        | .error _ =>
          (.error (.FileNotFound uri),
            [.listDirectory serverId stackName parentArg])
        | .ok listing =>
          match listing.entries.find? (fun e => e.name == fileName) with
          | some entry =>
            (.ok ⟨if entry.isDirectory then .Directory else .File,
                env.parseDate entry.modTime, env.parseDate entry.modTime,
                entry.size⟩,
              [.listDirectory serverId stackName parentArg])
          | none =>
            (.error (.FileNotFound uri),
              [.listDirectory serverId stackName parentArg])

/-- `readFileContent`: parse, stat (directories are refused), read, then
UTF-8-encode the returned string; `vscode.FileSystemError`s are rethrown
as-is, anything else becomes `Failed to load file: ...`. -/
def readFileContent (env : Env) (uri : Uri) :
    Except FsError (List Nat) × List NetCall :=
  let pathParts := splitPath uri.path
  if pathParts.length < 2 then
    (.error (.generic "Failed to load file: Invalid berth URI format"), [])
  else
    match jsParseInt uri.authority with
    | none =>
      (.error (.generic "Failed to load file: Invalid server ID in URI"), [])
    | some serverId =>
      let stackName := stackNameOf pathParts
      let filePath := relPathOf pathParts
      match getFileStat env uri with
      | (.error e, calls) => (.error e, calls)
      | (.ok st, calls) =>
        if st.type = .Directory then (.error (.FileIsADirectory uri), calls)
        else
          match env.readFile serverId stackName filePath with
          | .error msg =>
            (.error (.generic ("Failed to load file: " ++ msg)),
              calls ++ [.readFile serverId stackName filePath])
          | .ok fc =>
            (.ok (utf8Encode fc.content),
              calls ++ [.readFile serverId stackName filePath])

/-- `writeFileContent`: parse, UTF-8-decode the byte content into a string,
send it; every failure becomes `Failed to save file: ...`. -/
def writeFileContent (env : Env) (uri : Uri) (content : List Nat) :
    Except FsError Unit × List NetCall :=
  let pathParts := splitPath uri.path
  if pathParts.length < 2 then
    (.error (.generic "Failed to save file: Invalid berth URI format"), [])
  else
    match jsParseInt uri.authority with
    | none =>
      (.error (.generic "Failed to save file: Invalid server ID in URI"), [])
    | some serverId =>
      let stackName := stackNameOf pathParts
      let filePath := relPathOf pathParts
      let contentStr := utf8Decode content
      match env.writeFile serverId stackName filePath contentStr with
      | .error msg =>
        (.error (.generic ("Failed to save file: " ++ msg)),
          [.writeFile serverId stackName filePath contentStr])
      | .ok _ => (.ok (), [.writeFile serverId stackName filePath contentStr])

/-- `readDirectoryContents`: list and map to `(name, type)` pairs; every
failure becomes `Failed to read directory: ...`. -/
def readDirectoryContents (env : Env) (uri : Uri) :
    Except FsError (List (String × FileType)) × List NetCall :=
  let pathParts := splitPath uri.path
  if pathParts.length < 1 then
    (.error (.generic "Failed to read directory: Invalid berth URI format"),
      [])
  else
    match jsParseInt uri.authority with
    | none =>
      (.error
        (.generic "Failed to read directory: Invalid server ID in URI"), [])
    | some serverId =>
      let stackName := stackNameOf pathParts
      let dirArg := relPathArgOf pathParts
      match env.listDirectory serverId stackName dirArg with
      | .error msg =>
        (.error (.generic ("Failed to read directory: " ++ msg)),
          [.listDirectory serverId stackName dirArg])
      | .ok listing =>
        (.ok (listing.entries.map fun e =>
            (e.name, if e.isDirectory then FileType.Directory
              else FileType.File)),
          [.listDirectory serverId stackName dirArg])

/-- `createDirectoryAtPath`. -/
def createDirectoryAtPath (env : Env) (uri : Uri) :
    Except FsError Unit × List NetCall :=
  let pathParts := splitPath uri.path
  if pathParts.length < 2 then
    (.error
      (.generic "Failed to create directory: Invalid berth URI format"), [])
  else
    match jsParseInt uri.authority with
    | none =>
      (.error
        (.generic "Failed to create directory: Invalid server ID in URI"), [])
    | some serverId =>
      let stackName := stackNameOf pathParts
      let dirPath := relPathOf pathParts
      match env.createDirectory serverId stackName dirPath with
      | .error msg =>
        (.error (.generic ("Failed to create directory: " ++ msg)),
          [.createDirectory serverId stackName dirPath])
      | .ok _ => (.ok (), [.createDirectory serverId stackName dirPath])

/-- `deleteAtPath`. -/
def deleteAtPath (env : Env) (uri : Uri) :
    Except FsError Unit × List NetCall :=
  let pathParts := splitPath uri.path
  if pathParts.length < 2 then
    (.error (.generic "Failed to delete: Invalid berth URI format"), [])
  else
    match jsParseInt uri.authority with
    | none =>
      (.error (.generic "Failed to delete: Invalid server ID in URI"), [])
    | some serverId =>
      let stackName := stackNameOf pathParts
      let filePath := relPathOf pathParts
      match env.deleteFile serverId stackName filePath with
      | .error msg =>
        (.error (.generic ("Failed to delete: " ++ msg)),
          [.deleteFile serverId stackName filePath])
      | .ok _ => (.ok (), [.deleteFile serverId stackName filePath])

/-- `renameAtPath`: both URIs must have at least a stack and one segment, the
old authority must parse, and the cross-server/cross-stack guard rejects the
move before `FilesService.renameFile` is called. -/
def renameAtPath (env : Env) (oldUri newUri : Uri) :
    Except FsError Unit × List NetCall :=
  let oldPathParts := splitPath oldUri.path
  let newPathParts := splitPath newUri.path
  if oldPathParts.length < 2 ∨ newPathParts.length < 2 then
    (.error (.generic "Failed to rename/move: Invalid berth URI format"), [])
  else
    match jsParseInt oldUri.authority with
    | none =>
      (.error (.generic "Failed to rename/move: Invalid server ID in URI"),
        [])
    | some serverId =>
      let stackName := stackNameOf oldPathParts
      let oldPath := relPathOf oldPathParts
      let newPath := relPathOf newPathParts
      if oldUri.authority ≠ newUri.authority ∨
          stackNameOf oldPathParts ≠ stackNameOf newPathParts then
        (.error (.generic
          "Failed to rename/move: Cannot move files between different servers or stacks"),
          [])
      else if oldPath = "" ∨ newPath = "" then
        (.error (.generic
          "Failed to rename/move: Invalid file paths for rename operation"),
          [])
      else
        match env.renameFile serverId stackName oldPath newPath with
        | .error msg =>
          (.error (.generic ("Failed to rename/move: " ++ msg)),
            [.renameFile serverId stackName oldPath newPath])
        | .ok _ => (.ok (), [.renameFile serverId stackName oldPath newPath])

/-- Public `stat`: the authentication gate, then `getFileStat`. -/
def stat (env : Env) (uri : Uri) : Except FsError FileStat × List NetCall :=
  if isAuthenticated env then getFileStat env uri
  else (.error (.Unavailable "Not authenticated to Berth server"), [])

/-- Public `readDirectory`. -/
def readDirectory (env : Env) (uri : Uri) :
    Except FsError (List (String × FileType)) × List NetCall :=
  if isAuthenticated env then readDirectoryContents env uri
  else (.error (.Unavailable "Not authenticated to Berth server"), [])

/-- Public `createDirectory`. -/
def createDirectory (env : Env) (uri : Uri) :
    Except FsError Unit × List NetCall :=
  if isAuthenticated env then createDirectoryAtPath env uri
  else (.error (.Unavailable "Not authenticated to Berth server"), [])

/-- Public `delete`. -/
def delete (env : Env) (uri : Uri) : Except FsError Unit × List NetCall :=
  if isAuthenticated env then deleteAtPath env uri
  else (.error (.Unavailable "Not authenticated to Berth server"), [])

/-- Public `rename`. -/
def rename (env : Env) (oldUri newUri : Uri) :
    Except FsError Unit × List NetCall :=
  if isAuthenticated env then renameAtPath env oldUri newUri
  else (.error (.Unavailable "Not authenticated to Berth server"), [])

/-- Public `readFile`. -/
def readFile (env : Env) (uri : Uri) :
    Except FsError (List Nat) × List NetCall :=
  if isAuthenticated env then readFileContent env uri
  else (.error (.Unavailable "Not authenticated to Berth server"), [])

/-- Public `writeFile`. -/
def writeFile (env : Env) (uri : Uri) (content : List Nat) :
    Except FsError Unit × List NetCall :=
  if isAuthenticated env then writeFileContent env uri content
  else (.error (.Unavailable "Not authenticated to Berth server"), [])

end BerthFileSystemProvider

/-! ## `FilesService.listDirectory` normalization

Both revisions of `FilesService.ts` normalize the raw JSON listing with the
same defaults. A raw field that may be absent from the JSON is an `Option`;
`formatFileSize` is abstracted as `fmt` (its floating-point arithmetic is
outside the model and changes no other field). -/

/-- A raw JSON file entry (the untyped `entry: any` of the source). -/
structure RawFileEntry where
  name : Option String
  path : Option String
  is_directory : Option Bool
  size : Option Nat
  mod_time : Option String
  mode : Option String
  owner_id : Option Int
  group_id : Option Int
  owner : Option String
  group : Option String
deriving DecidableEq

/-- The raw JSON listing (`rawData`); `none` models a null/undefined body. -/
structure RawListing where
  path : Option String
  entries : Option (List RawFileEntry)
deriving DecidableEq

/-- JavaScript `a || d` for an optional string: missing and `""` are falsy. -/
def jsOrStr (o : Option String) (d : String) : String :=
  match o with
  | none => d
  | some s => if s = "" then d else s

/-- JavaScript `a || 0` for an optional count (missing and `0` give `0`). -/
def jsOrNat (o : Option Nat) : Nat := o.getD 0

/-- `entry.name && entry.name.includes(".") ? entry.name.split(".").pop() :
undefined`. -/
def extensionOf (name : Option String) : Option String :=
  match name with
  | none => none
  | some s =>
    if s = "" then none
    else if s.toList.contains '.' then
      some (String.mk ((s.toList.splitOn '.').getLastD []))
    else none

namespace FilesService

/-- The per-entry normalization inside `listDirectory` (lines 76–95 and
327–348 of the two revisions are identical). `nowISO` is
`new Date().toISOString()` at the time of the call. -/
def normalizeEntry (nowISO : String) (fmt : Nat → String)
    (e : RawFileEntry) : FileEntry where
  name := jsOrStr e.name ""
  path := jsOrStr e.path ""
  isDirectory := e.is_directory == some true
  size := jsOrNat e.size
  displaySize := fmt (jsOrNat e.size)
  modTime := jsOrStr e.mod_time nowISO
  mode := jsOrStr e.mode "0644"
  ownerId := e.owner_id
  groupId := e.group_id
  owner := e.owner
  group := e.group
  extension := extensionOf e.name

/-- `listDirectory`'s response handling: a missing body yields an empty
listing, otherwise every raw entry is normalized. -/
def listDirectory (nowISO : String) (fmt : Nat → String)
    (rawData : Option RawListing) : DirectoryListing :=
  match rawData with
  | none => { path := "", entries := [] }
  | some raw =>
    { path := jsOrStr raw.path ""
      entries := (raw.entries.getD []).map (normalizeEntry nowISO fmt) }

end FilesService

/-! ## `AuthService` state and `logout()` -/

/-- `User` of `AuthService.ts`. -/
structure User where
  id : Int
  username : String
  email : String
  firstName : Option String
  lastName : Option String
  totpEnabled : Bool
  emailVerified : Bool
  permissions : List String
deriving DecidableEq

namespace AuthService

/-- `AuthService.ACCESS_TOKEN_KEY`. -/
def ACCESS_TOKEN_KEY : String := "berth.accessToken"

/-- `AuthService.REFRESH_TOKEN_KEY`. -/
def REFRESH_TOKEN_KEY : String := "berth.refreshToken"

/-- `AuthService.USER_KEY`. -/
def USER_KEY : String := "berth.user"

/-- `vscode.SecretStorage` as a key–value association list. -/
abbrev Storage := List (String × String)

/-- `secretStorage.store(k, v)`. -/
def storageStore (s : Storage) (k v : String) : Storage :=
  (k, v) :: s.filter (fun kv => kv.1 != k)

/-- `secretStorage.delete(k)`. -/
def storageDelete (s : Storage) (k : String) : Storage :=
  s.filter (fun kv => kv.1 != k)

/-- `secretStorage.get(k)`. -/
def storageGet (s : Storage) (k : String) : Option String :=
  (s.find? (fun kv => kv.1 == k)).map (fun kv => kv.2)

/-- The in-memory fields of `AuthService`, its secret storage, and the
derived `berth.authenticated` context flag. -/
structure AuthState where
  currentUser : Option User
  accessToken : Option String
  refreshToken : Option String
  storage : Storage
  contextAuthenticated : Bool
deriving DecidableEq

/-- A server-side call issued by `AuthService`. -/
inductive AuthCall
  | logoutPost (refreshToken : String)
deriving DecidableEq

/-- JavaScript truthiness of a `string | null` value. -/
def jsTruthy (o : Option String) : Bool :=
  match o with
  | none => false
  | some s => s != ""

/-- `logout()`: the `try` block posts `/api/v1/auth/logout` only when both
tokens are truthy; `serverCallFails` models that request throwing, which the
empty `catch` ignores; the `finally` block unconditionally clears the
in-memory fields, deletes the three secret-storage entries and resets the
`berth.authenticated` context flag. -/
def logout (st : AuthState) (serverCallFails : Bool) :
    AuthState × List AuthCall :=
  let calls :=
    if jsTruthy st.accessToken && jsTruthy st.refreshToken then
      [AuthCall.logoutPost (st.refreshToken.getD "")]
    else []
  ({ currentUser := none
     accessToken := none
     refreshToken := none
     storage := storageDelete
       (storageDelete (storageDelete st.storage ACCESS_TOKEN_KEY)
         REFRESH_TOKEN_KEY) USER_KEY
     contextAuthenticated := false }, calls)

end AuthService

/-! ## Tree data providers: server/stack selection -/

/-- `Service` of `src/types/index.ts`. -/
structure Service where
  name : String
  status : String
  image : String
  ports : List String
deriving DecidableEq

/-- `Server` of `src/types/index.ts`. -/
structure Server where
  id : Int
  name : String
  description : Option String
  host : String
  port : Int
  status : String
deriving DecidableEq

/-- `Stack` of `src/types/index.ts`. -/
structure Stack where
  name : String
  status : String
  serverId : Int
  services : List Service
deriving DecidableEq

namespace StackTreeDataProvider

/-- The provider's selection fields. -/
structure State where
  currentServer : Option Server
  currentStack : Option Stack
deriving DecidableEq

/-- `setCurrentServer(server)` (StackTreeDataProvider.ts lines 150–154):
stores the server and resets `currentStack` to null. -/
def setCurrentServer (st : State) (server : Server) : State :=
  { st with currentServer := some server, currentStack := none }

/-- `setCurrentStack(stack)`. -/
def setCurrentStack (st : State) (stack : Option Stack) : State :=
  { st with currentStack := stack }

end StackTreeDataProvider

namespace BerthTreeDataProvider

/-- The provider's selection fields. -/
structure State where
  currentServer : Option Server
  currentStack : Option Stack
deriving DecidableEq

/-- `setCurrentServer(server)` (BerthTreeDataProvider.ts lines 171–173):
stores the server only; `currentStack` is left unchanged. -/
def setCurrentServer (st : State) (server : Option Server) : State :=
  { st with currentServer := server }

/-- `setCurrentStack(stack)`. -/
def setCurrentStack (st : State) (stack : Option Stack) : State :=
  { st with currentStack := stack }

end BerthTreeDataProvider

namespace AuthCommands

/-- The selection update `selectServer` performs when the user picks a
server (AuthCommands.ts lines 157–159): `setCurrentServer(selected.server)`
then `setCurrentStack(null)` on the `BerthTreeDataProvider`. -/
def selectServerUpdate (st : BerthTreeDataProvider.State)
    (selected : Server) : BerthTreeDataProvider.State :=
  BerthTreeDataProvider.setCurrentStack
    (BerthTreeDataProvider.setCurrentServer st (some selected)) none

end AuthCommands

/-! ## Concrete inputs used to evaluate the model on closed instances -/

/-- A concrete normalized file entry. -/
def entryFileTxt : FileEntry where
  name := "file.txt"
  path := "file.txt"
  isDirectory := false
  size := 2
  displaySize := "2 B"
  modTime := "2024-01-01T00:00:00Z"
  mode := "0644"
  ownerId := none
  groupId := none
  owner := none
  group := none
  extension := some "txt"

/-- A concrete binary file entry. -/
def entryBin : FileEntry where
  name := "a.bin"
  path := "a.bin"
  isDirectory := false
  size := 1
  displaySize := "1 B"
  modTime := "2024-01-01T00:00:00Z"
  mode := "0644"
  ownerId := none
  groupId := none
  owner := none
  group := none
  extension := some "bin"

/-- A concrete authenticated environment whose backend lists `file.txt` and
returns the text `Hi`. -/
def envAuthed : Env where
  authToken := some "token"
  now := 1700000000000
  parseDate := fun _ => 1704067200000
  listDirectory := fun _ _ _ => .ok { path := "", entries := [entryFileTxt] }
  readFile := fun _ _ _ =>
    .ok { path := "file.txt", content := [0x48, 0x69], encoding := "utf-8",
          size := 2 }
  writeFile := fun _ _ _ _ => .ok ()
  createDirectory := fun _ _ _ => .ok ()
  deleteFile := fun _ _ _ => .ok ()
  renameFile := fun _ _ _ _ => .ok ()

/-- The same environment with no auth token. -/
def envNoAuth : Env := { envAuthed with authToken := none }

/-- A stable backend for `a.bin`: `readFile` returns exactly the string that
`writeFileContent` sends for the byte payload `[0xFF]`, namely
`utf8Decode [0xFF]`. -/
def envBin : Env := { envAuthed with
  listDirectory := fun _ _ _ => .ok { path := "", entries := [entryBin] }
  readFile := fun _ _ _ =>
    .ok { path := "a.bin", content := utf8Decode [0xFF], encoding := "utf-8",
          size := 1 } }

/-- An environment whose backend always fails with an HTTP-ish error. -/
def envHttpErr : Env := { envAuthed with
  listDirectory := fun _ _ _ => .error "Resource not found: 404"
  readFile := fun _ _ _ => .error "Resource not found: 404" }

/-- A concrete UTF-8 text file entry. -/
def entryETxt : FileEntry where
  name := "e.txt"
  path := "e.txt"
  isDirectory := false
  size := 2
  displaySize := "2 B"
  modTime := "2024-01-01T00:00:00Z"
  mode := "0644"
  ownerId := none
  groupId := none
  owner := none
  group := none
  extension := some "txt"

/-- A stable backend for `e.txt` holding the string written for the UTF-8
payload `C3 A9`. -/
def envUtf8 : Env := { envAuthed with
  listDirectory := fun _ _ _ => .ok { path := "", entries := [entryETxt] }
  readFile := fun _ _ _ =>
    .ok { path := "e.txt", content := utf8Decode [0xC3, 0xA9],
          encoding := "utf-8", size := 2 } }

/-- A concrete server. -/
def serverAlpha : Server where
  id := 1
  name := "alpha"
  description := none
  host := "h1"
  port := 8080
  status := "active"

/-- Another concrete server. -/
def serverBeta : Server where
  id := 2
  name := "beta"
  description := none
  host := "h2"
  port := 8080
  status := "active"

/-- A concrete stack owned by `serverAlpha`. -/
def stackWeb : Stack where
  name := "web"
  status := "running"
  serverId := 1
  services := []

/-! ## Theorems

First the UTF-8 codec facts (sanity checks on concrete byte strings, and the
round-trip law used by the C1 analysis), then one theorem per claim. -/

example : utf8Decode [0x48, 0x69] = [0x48, 0x69] := by decide
example : utf8Decode [0xFF] = [0xFFFD] := by decide
example : utf8Decode [0xC3, 0xA9] = [0xE9] := by decide
example : utf8Encode [0xE9] = [0xC3, 0xA9] := by decide
example : utf8Decode [0xE2, 0x82, 0xAC] = [0x20AC] := by decide
example : utf8Decode [0xF0, 0x9F, 0x98, 0x80] = [0x1F600] := by decide
example : utf8Encode [0x1F600] = [0xF0, 0x9F, 0x98, 0x80] := by decide
example : utf8Encode (utf8Decode [0xFF]) = [0xEF, 0xBF, 0xBD] := by decide
example : utf8Decode [0xED, 0xA0, 0x80] = [0xFFFD, 0xFFFD, 0xFFFD] := by decide
example : utf8Decode [0xE0, 0x9F, 0x80] = [0xFFFD, 0xFFFD, 0xFFFD] := by decide
example : utf8Decode [0xC2] = [0xFFFD] := by decide

theorem utf8DecodeA_cons (st : Utf8State) (b : Nat) (rest : List Nat) :
    utf8DecodeA st (b :: rest) =
      (utf8Step st b).2 ++ utf8DecodeA (utf8Step st b).1 rest := rfl

set_option maxRecDepth 8192 in
set_option maxHeartbeats 1600000 in
/-- Decoding one validly encoded scalar consumes exactly its bytes. -/
theorem utf8DecodeA_encodeChar (c : Nat) (l : List Nat) (hv : IsValidScalar c) :
    utf8DecodeA utf8Init (encodeChar c ++ l) = c :: utf8DecodeA utf8Init l := by
  by_cases h1 : c < 0x80
  · have he : encodeChar c = [c] := by rw [encodeChar, if_pos h1]
    have e1 : utf8Step utf8Init c = (utf8Init, [c]) := by
      simp [utf8Step, utf8StartByte, utf8Init, h1]
    rw [he, List.cons_append, List.nil_append, utf8DecodeA_cons, e1]
    simp
  by_cases h2 : c < 0x800
  · have he : encodeChar c = [0xC0 + c / 64, 0x80 + c % 64] := by
      rw [encodeChar, if_neg h1, if_pos h2]
    have hbA : ¬ (0xC0 + c / 64 < 0x80) := by omega
    have hbB : ¬ (0xC0 + c / 64 < 0xC2) := by omega
    have hbC : 0xC0 + c / 64 < 0xE0 := by omega
    have e1 : utf8Step utf8Init (0xC0 + c / 64) =
        (⟨0xC0 + c / 64 - 0xC0, 1, 0x80, 0xBF⟩, []) := by
      simp [utf8Step, utf8StartByte, utf8Init, hbA, hbB, hbC]
    have hrA : 0x80 ≤ 0x80 + c % 64 := by omega
    have hrB : 0x80 + c % 64 ≤ 0xBF := by omega
    have e2 : utf8Step ⟨0xC0 + c / 64 - 0xC0, 1, 0x80, 0xBF⟩ (0x80 + c % 64) =
        (utf8Init, [(0xC0 + c / 64 - 0xC0) * 64 + (0x80 + c % 64 - 0x80)]) := by
      simp [utf8Step, hrA, hrB]
    have hc : (0xC0 + c / 64 - 0xC0) * 64 + (0x80 + c % 64 - 0x80) = c := by
      omega
    rw [he]
    simp only [List.cons_append, List.nil_append]
    rw [utf8DecodeA_cons, e1]
    simp only [List.nil_append]
    rw [utf8DecodeA_cons, e2, hc]
    simp
  by_cases h3 : c < 0x10000
  · have he : encodeChar c =
        [0xE0 + c / 4096, 0x80 + c / 64 % 64, 0x80 + c % 64] := by
      rw [encodeChar, if_neg h1, if_neg h2, if_pos h3]
    have hsplit : c < 0x1000 ∨ (0xD000 ≤ c ∧ c < 0xE000) ∨
        (0x1000 ≤ c ∧ (c < 0xD000 ∨ 0xE000 ≤ c)) := by omega
    have hc : ∀ lo hi : Nat,
        utf8Step utf8Init (0xE0 + c / 4096) =
          (⟨0xE0 + c / 4096 - 0xE0, 2, lo, hi⟩, []) →
        lo ≤ 0x80 + c / 64 % 64 → 0x80 + c / 64 % 64 ≤ hi →
        utf8DecodeA utf8Init
          ([0xE0 + c / 4096, 0x80 + c / 64 % 64, 0x80 + c % 64] ++ l) =
          c :: utf8DecodeA utf8Init l := by
      intro lo hi e1 hlo hhi
      have e2 : utf8Step ⟨0xE0 + c / 4096 - 0xE0, 2, lo, hi⟩
          (0x80 + c / 64 % 64) =
          (⟨(0xE0 + c / 4096 - 0xE0) * 64 + (0x80 + c / 64 % 64 - 0x80), 1,
            0x80, 0xBF⟩, []) := by
        simp only [utf8Step]
        rw [if_neg (by simp), if_pos ⟨hlo, hhi⟩, if_neg (by simp)]
      have e3 : utf8Step ⟨(0xE0 + c / 4096 - 0xE0) * 64 +
            (0x80 + c / 64 % 64 - 0x80), 1, 0x80, 0xBF⟩ (0x80 + c % 64) =
          (utf8Init, [((0xE0 + c / 4096 - 0xE0) * 64 +
            (0x80 + c / 64 % 64 - 0x80)) * 64 + (0x80 + c % 64 - 0x80)]) := by
        have hrA : (0x80 : Nat) ≤ 0x80 + c % 64 := by omega
        have hrB : 0x80 + c % 64 ≤ 0xBF := by omega
        simp [utf8Step, hrA, hrB]
      have hval : ((0xE0 + c / 4096 - 0xE0) * 64 + (0x80 + c / 64 % 64 - 0x80))
          * 64 + (0x80 + c % 64 - 0x80) = c := by omega
      simp only [List.cons_append, List.nil_append]
      rw [utf8DecodeA_cons, e1]
      simp only [List.nil_append]
      rw [utf8DecodeA_cons, e2]
      simp only [List.nil_append]
      rw [utf8DecodeA_cons, e3, hval]
      simp
    rw [he]
    rcases hsplit with hA | hB | hC
    · refine hc 0xA0 0xBF ?_ (by omega) (by omega)
      simp only [utf8Step, utf8StartByte, utf8Init, if_true]
      split_ifs <;> first | (exfalso; omega) | rfl
    · refine hc 0x80 0x9F ?_ (by omega) ?_
      · simp only [utf8Step, utf8StartByte, utf8Init, if_true]
        split_ifs <;> first | (exfalso; omega) | rfl
      · rcases hv with hs | hs <;> omega
    · obtain ⟨hC1, hC2⟩ := hC
      refine hc 0x80 0xBF ?_ (by omega) (by omega)
      have hD1 : 0xE0 + c / 4096 ≠ 0xE0 := by omega
      have hD2 : 0xE0 + c / 4096 ≠ 0xED := by rcases hC2 with hD | hD <;> omega
      simp only [utf8Step, utf8StartByte, utf8Init, if_true]
      split_ifs <;> first | (exfalso; omega) | rfl
  · have h4 : c < 0x110000 := by rcases hv with hs | hs <;> omega
    have he : encodeChar c =
        [0xF0 + c / 262144, 0x80 + c / 4096 % 64, 0x80 + c / 64 % 64,
          0x80 + c % 64] := by
      rw [encodeChar, if_neg h1, if_neg h2, if_neg h3]
    have hsplit : c < 0x40000 ∨ 0x100000 ≤ c ∨
        (0x40000 ≤ c ∧ c < 0x100000) := by omega
    have hc : ∀ lo hi : Nat,
        utf8Step utf8Init (0xF0 + c / 262144) =
          (⟨0xF0 + c / 262144 - 0xF0, 3, lo, hi⟩, []) →
        lo ≤ 0x80 + c / 4096 % 64 → 0x80 + c / 4096 % 64 ≤ hi →
        utf8DecodeA utf8Init
          ([0xF0 + c / 262144, 0x80 + c / 4096 % 64, 0x80 + c / 64 % 64,
            0x80 + c % 64] ++ l) = c :: utf8DecodeA utf8Init l := by
      intro lo hi e1 hlo hhi
      have e2 : utf8Step ⟨0xF0 + c / 262144 - 0xF0, 3, lo, hi⟩
          (0x80 + c / 4096 % 64) =
          (⟨(0xF0 + c / 262144 - 0xF0) * 64 + (0x80 + c / 4096 % 64 - 0x80),
            2, 0x80, 0xBF⟩, []) := by
        simp only [utf8Step]
        rw [if_neg (by simp), if_pos ⟨hlo, hhi⟩, if_neg (by simp)]
      have e3 : utf8Step ⟨(0xF0 + c / 262144 - 0xF0) * 64 +
            (0x80 + c / 4096 % 64 - 0x80), 2, 0x80, 0xBF⟩
          (0x80 + c / 64 % 64) =
          (⟨((0xF0 + c / 262144 - 0xF0) * 64 + (0x80 + c / 4096 % 64 - 0x80))
            * 64 + (0x80 + c / 64 % 64 - 0x80), 1, 0x80, 0xBF⟩, []) := by
        have hsA : (0x80 : Nat) ≤ 0x80 + c / 64 % 64 := by omega
        have hsB : 0x80 + c / 64 % 64 ≤ 0xBF := by omega
        simp [utf8Step, hsA, hsB]
      have e4 : utf8Step ⟨((0xF0 + c / 262144 - 0xF0) * 64 +
            (0x80 + c / 4096 % 64 - 0x80)) * 64 + (0x80 + c / 64 % 64 - 0x80),
            1, 0x80, 0xBF⟩ (0x80 + c % 64) =
          (utf8Init, [(((0xF0 + c / 262144 - 0xF0) * 64 +
            (0x80 + c / 4096 % 64 - 0x80)) * 64 + (0x80 + c / 64 % 64 - 0x80))
            * 64 + (0x80 + c % 64 - 0x80)]) := by
        have hrA : (0x80 : Nat) ≤ 0x80 + c % 64 := by omega
        have hrB : 0x80 + c % 64 ≤ 0xBF := by omega
        simp [utf8Step, hrA, hrB]
      have hval : (((0xF0 + c / 262144 - 0xF0) * 64 +
          (0x80 + c / 4096 % 64 - 0x80)) * 64 + (0x80 + c / 64 % 64 - 0x80))
          * 64 + (0x80 + c % 64 - 0x80) = c := by omega
      simp only [List.cons_append, List.nil_append]
      rw [utf8DecodeA_cons, e1]
      simp only [List.nil_append]
      rw [utf8DecodeA_cons, e2]
      simp only [List.nil_append]
      rw [utf8DecodeA_cons, e3]
      simp only [List.nil_append]
      rw [utf8DecodeA_cons, e4, hval]
      simp
    rw [he]
    rcases hsplit with hA | hB | hC
    · refine hc 0x90 0xBF ?_ (by omega) (by omega)
      simp only [utf8Step, utf8StartByte, utf8Init, if_true]
      split_ifs <;> first | (exfalso; omega) | rfl
    · refine hc 0x80 0x8F ?_ (by omega) (by omega)
      simp only [utf8Step, utf8StartByte, utf8Init, if_true]
      split_ifs <;> first | (exfalso; omega) | rfl
    · obtain ⟨hC1, hC2⟩ := hC
      refine hc 0x80 0xBF ?_ (by omega) (by omega)
      simp only [utf8Step, utf8StartByte, utf8Init, if_true]
      split_ifs <;> first | (exfalso; omega) | rfl

/-- Decoding is a left inverse of encoding on valid scalar sequences. -/
theorem utf8Decode_utf8Encode (t : List Nat) (hv : ∀ c ∈ t, IsValidScalar c) :
    utf8Decode (utf8Encode t) = t := by
  induction t with
  | nil => rfl
  | cons c t ih =>
    rw [utf8Encode, utf8Decode, utf8DecodeA_encodeChar c _ (hv c (by simp))]
    exact congrArg (c :: ·) (ih fun x hx => hv x (by simp [hx]))

/-! ## Claim theorems -/

/-- C2: for every URI, every filesystem-adapter operation (stat,
readDirectory, readFile, writeFile, createDirectory, delete, rename) invoked
while the auth token is absent fails with the distinguished `Unavailable`
condition and issues no call into the file-operations client. -/
theorem unauthenticated_ops_fail_unavailable_without_network
    (env : Env) (uri uri2 : Uri) (content : List Nat)
    (h : env.authToken = none) :
    BerthFileSystemProvider.stat env uri =
      (.error (.Unavailable "Not authenticated to Berth server"), []) ∧
    BerthFileSystemProvider.readDirectory env uri =
      (.error (.Unavailable "Not authenticated to Berth server"), []) ∧
    BerthFileSystemProvider.readFile env uri =
      (.error (.Unavailable "Not authenticated to Berth server"), []) ∧
    BerthFileSystemProvider.writeFile env uri content =
      (.error (.Unavailable "Not authenticated to Berth server"), []) ∧
    BerthFileSystemProvider.createDirectory env uri =
      (.error (.Unavailable "Not authenticated to Berth server"), []) ∧
    BerthFileSystemProvider.delete env uri =
      (.error (.Unavailable "Not authenticated to Berth server"), []) ∧
    BerthFileSystemProvider.rename env uri uri2 =
      (.error (.Unavailable "Not authenticated to Berth server"), []) := by
  have hb : BerthFileSystemProvider.isAuthenticated env = false := by
    simp [BerthFileSystemProvider.isAuthenticated, h]
  refine ⟨?_, ?_, ?_, ?_, ?_, ?_, ?_⟩ <;>
    simp [BerthFileSystemProvider.stat, BerthFileSystemProvider.readDirectory,
      BerthFileSystemProvider.readFile, BerthFileSystemProvider.writeFile,
      BerthFileSystemProvider.createDirectory, BerthFileSystemProvider.delete,
      BerthFileSystemProvider.rename, hb]

/-- Witness for C2 at a concrete unauthenticated environment and URIs. -/
theorem unauthenticated_ops_fail_unavailable_without_network_witness :
    BerthFileSystemProvider.stat envNoAuth ⟨"7", "/web/a.txt"⟩ =
      (.error (.Unavailable "Not authenticated to Berth server"), []) ∧
    BerthFileSystemProvider.rename envNoAuth ⟨"7", "/web/a.txt"⟩
        ⟨"7", "/web/b.txt"⟩ =
      (.error (.Unavailable "Not authenticated to Berth server"), []) := by
  have h := unauthenticated_ops_fail_unavailable_without_network envNoAuth
    ⟨"7", "/web/a.txt"⟩ ⟨"7", "/web/b.txt"⟩ [] rfl
  exact ⟨h.1, h.2.2.2.2.2.2⟩

/-- C3: an authenticated `stat()` on a stack-root URI (exactly one non-empty
path segment, a parsable server id) returns a directory of size 0 with the
current timestamps and issues no network call, for every backend. -/
theorem stat_stack_root_is_directory_no_network
    (env : Env) (uri : Uri) (serverId : Int)
    (hauth : env.authToken.isSome)
    (hlen : (splitPath uri.path).length = 1)
    (hparse : jsParseInt uri.authority = some serverId) :
    BerthFileSystemProvider.stat env uri =
      (.ok ⟨.Directory, env.now, env.now, 0⟩, []) := by
  simp [BerthFileSystemProvider.stat, BerthFileSystemProvider.getFileStat,
    BerthFileSystemProvider.isAuthenticated, hauth, hlen, hparse]

/-- Witness for C3: `berth://7/web` stats as a root directory even when the
backend errors on every call. -/
theorem stat_stack_root_is_directory_no_network_witness :
    BerthFileSystemProvider.stat envHttpErr ⟨"7", "/web"⟩ =
      (.ok ⟨.Directory, 1700000000000, 1700000000000, 0⟩, []) := by
  have h := stat_stack_root_is_directory_no_network envHttpErr ⟨"7", "/web"⟩ 7
    (by decide) (by decide) (by decide)
  exact h

/-- C5: an authenticated `stat()` on a non-root URI looks the entry up in the
parent directory's listing; when no entry there has the target name, the
result is the distinguished `FileNotFound` condition — not a generic error
and not a fabricated success — after exactly the one listing call. -/
theorem stat_absent_entry_is_file_not_found
    (env : Env) (uri : Uri) (serverId : Int) (listing : DirectoryListing)
    (hauth : env.authToken.isSome)
    (hlen : 2 ≤ (splitPath uri.path).length)
    (hparse : jsParseInt uri.authority = some serverId)
    (hlist : env.listDirectory serverId
        (BerthFileSystemProvider.stackNameOf (splitPath uri.path))
        (BerthFileSystemProvider.parentArgOf (splitPath uri.path)) =
        .ok listing)
    (habsent : ∀ e ∈ listing.entries,
        e.name ≠ BerthFileSystemProvider.fileNameOf (splitPath uri.path)) :
    BerthFileSystemProvider.stat env uri =
      (.error (.FileNotFound uri),
        [.listDirectory serverId
          (BerthFileSystemProvider.stackNameOf (splitPath uri.path))
          (BerthFileSystemProvider.parentArgOf (splitPath uri.path))]) := by
  have hfind : listing.entries.find?
      (fun e => e.name ==
        BerthFileSystemProvider.fileNameOf (splitPath uri.path)) = none := by
    rw [List.find?_eq_none]
    intro e he
    simpa using habsent e he
  have h1 : ¬ ((splitPath uri.path).length < 1) := by omega
  have h2 : (splitPath uri.path).length ≠ 1 := by omega
  simp [BerthFileSystemProvider.stat, BerthFileSystemProvider.getFileStat,
    BerthFileSystemProvider.isAuthenticated, hauth, hparse, hlist, hfind,
    h1, h2]

/-- Witness for C5: `berth://7/web/missing.txt` against a backend whose
listing contains only `file.txt`. -/
theorem stat_absent_entry_is_file_not_found_witness :
    BerthFileSystemProvider.stat envAuthed ⟨"7", "/web/missing.txt"⟩ =
      (.error (.FileNotFound ⟨"7", "/web/missing.txt"⟩),
        [.listDirectory 7 "web" none]) := by
  have h := stat_absent_entry_is_file_not_found envAuthed
    ⟨"7", "/web/missing.txt"⟩ 7 { path := "", entries := [entryFileTxt] }
    (by decide) (by decide) (by decide) (by decide)
    (by intro e he; simp [entryFileTxt] at he; simp [he]; decide)
  exact h

/-- C10: inside `getFileStat` every failure — a URI with no path segments,
an unparsable server id, a failing parent listing (HTTP, network or auth
error alike), and an absent entry — is surfaced as the single `FileNotFound`
condition. -/
theorem getFileStat_all_failures_become_file_not_found
    (env : Env) (uri : Uri) :
    (splitPath uri.path = [] →
      BerthFileSystemProvider.getFileStat env uri =
        (.error (.FileNotFound uri), [])) ∧
    (jsParseInt uri.authority = none →
      BerthFileSystemProvider.getFileStat env uri =
        (.error (.FileNotFound uri), [])) ∧
    (∀ serverId msg, 2 ≤ (splitPath uri.path).length →
      jsParseInt uri.authority = some serverId →
      env.listDirectory serverId
        (BerthFileSystemProvider.stackNameOf (splitPath uri.path))
        (BerthFileSystemProvider.parentArgOf (splitPath uri.path)) =
        .error msg →
      BerthFileSystemProvider.getFileStat env uri =
        (.error (.FileNotFound uri),
          [.listDirectory serverId
            (BerthFileSystemProvider.stackNameOf (splitPath uri.path))
            (BerthFileSystemProvider.parentArgOf (splitPath uri.path))])) ∧
    (∀ serverId listing, 2 ≤ (splitPath uri.path).length →
      jsParseInt uri.authority = some serverId →
      env.listDirectory serverId
        (BerthFileSystemProvider.stackNameOf (splitPath uri.path))
        (BerthFileSystemProvider.parentArgOf (splitPath uri.path)) =
        .ok listing →
      listing.entries.find?
        (fun e => e.name ==
          BerthFileSystemProvider.fileNameOf (splitPath uri.path)) = none →
      BerthFileSystemProvider.getFileStat env uri =
        (.error (.FileNotFound uri),
          [.listDirectory serverId
            (BerthFileSystemProvider.stackNameOf (splitPath uri.path))
            (BerthFileSystemProvider.parentArgOf (splitPath uri.path))])) := by
  refine ⟨?_, ?_, ?_, ?_⟩
  · intro hnil
    simp [BerthFileSystemProvider.getFileStat, hnil]
  · intro hparse
    by_cases h0 : (splitPath uri.path).length < 1
    · simp [BerthFileSystemProvider.getFileStat, h0]
    · simp [BerthFileSystemProvider.getFileStat, h0, hparse]
  · intro serverId msg hlen hparse hlist
    have h1 : ¬ ((splitPath uri.path).length < 1) := by omega
    have h2 : (splitPath uri.path).length ≠ 1 := by omega
    simp [BerthFileSystemProvider.getFileStat, h1, h2, hparse, hlist]
  · intro serverId listing hlen hparse hlist hfind
    have h1 : ¬ ((splitPath uri.path).length < 1) := by omega
    have h2 : (splitPath uri.path).length ≠ 1 := by omega
    simp [BerthFileSystemProvider.getFileStat, h1, h2, hparse, hlist, hfind]

/-- Witness for C10: the no-segments, bad-authority and failing-listing cases
at concrete inputs. -/
theorem getFileStat_all_failures_become_file_not_found_witness :
    BerthFileSystemProvider.getFileStat envAuthed ⟨"7", "/"⟩ =
      (.error (.FileNotFound ⟨"7", "/"⟩), []) ∧
    BerthFileSystemProvider.getFileStat envAuthed ⟨"abc", "/web/x.txt"⟩ =
      (.error (.FileNotFound ⟨"abc", "/web/x.txt"⟩), []) ∧
    BerthFileSystemProvider.getFileStat envHttpErr ⟨"7", "/web/x.txt"⟩ =
      (.error (.FileNotFound ⟨"7", "/web/x.txt"⟩),
        [.listDirectory 7 "web" none]) := by
  refine ⟨?_, ?_, ?_⟩
  · exact (getFileStat_all_failures_become_file_not_found envAuthed
      ⟨"7", "/"⟩).1 (by decide)
  · exact (getFileStat_all_failures_become_file_not_found envAuthed
      ⟨"abc", "/web/x.txt"⟩).2.1 (by decide)
  · exact (getFileStat_all_failures_become_file_not_found envHttpErr
      ⟨"7", "/web/x.txt"⟩).2.2.1 7 "Resource not found: 404" (by decide)
      (by decide) (by decide)

/-- C4: when the two URIs' authorities differ or their first path segments
differ, `rename` fails without issuing any client call, and — whenever the
request is otherwise well-formed (authenticated, both URIs have at least two
segments, the old authority parses) — the rejection is exactly the
cross-domain move error. -/
theorem rename_cross_domain_rejected_before_network
    (env : Env) (o n : Uri)
    (hdiff : o.authority ≠ n.authority ∨
      (splitPath o.path).head? ≠ (splitPath n.path).head?) :
    ((BerthFileSystemProvider.rename env o n).1.isOk = false ∧
      (BerthFileSystemProvider.rename env o n).2 = []) ∧
    (BerthFileSystemProvider.isAuthenticated env = true →
      2 ≤ (splitPath o.path).length → 2 ≤ (splitPath n.path).length →
      ∀ serverId, jsParseInt o.authority = some serverId →
      BerthFileSystemProvider.rename env o n =
        (.error (.generic
          "Failed to rename/move: Cannot move files between different servers or stacks"),
          [])) := by
  by_cases hA : BerthFileSystemProvider.isAuthenticated env = true
  · have hre : BerthFileSystemProvider.rename env o n =
        BerthFileSystemProvider.renameAtPath env o n := by
      simp [BerthFileSystemProvider.rename, hA]
    by_cases hsz : (splitPath o.path).length < 2 ∨ (splitPath n.path).length < 2
    · have hres : BerthFileSystemProvider.renameAtPath env o n =
          (.error (.generic "Failed to rename/move: Invalid berth URI format"),
            []) := by
        simp only [BerthFileSystemProvider.renameAtPath]
        rw [if_pos hsz]
      rw [hre, hres]
      exact ⟨⟨rfl, rfl⟩, fun _ h2 h3 _ _ => absurd hsz (by omega)⟩
    · have h2 : 2 ≤ (splitPath o.path).length := by omega
      have h3 : 2 ≤ (splitPath n.path).length := by omega
      rcases hp : jsParseInt o.authority with _ | serverId
      · have hres : BerthFileSystemProvider.renameAtPath env o n =
            (.error
              (.generic "Failed to rename/move: Invalid server ID in URI"),
              []) := by
          simp only [BerthFileSystemProvider.renameAtPath, hp]
          rw [if_neg hsz]
        rw [hre, hres]
        refine ⟨⟨rfl, rfl⟩, fun _ _ _ serverId hid => ?_⟩
        cases hid
      · have hcross : o.authority ≠ n.authority ∨
            BerthFileSystemProvider.stackNameOf (splitPath o.path) ≠
              BerthFileSystemProvider.stackNameOf (splitPath n.path) := by
          rcases hdiff with h | h
          · exact Or.inl h
          · right
            intro heq
            apply h
            rcases ho : splitPath o.path with _ | ⟨a, ta⟩
            · rw [ho] at h2; simp at h2
            · rcases hn : splitPath n.path with _ | ⟨b, tb⟩
              · rw [hn] at h3; simp at h3
              · rw [ho, hn] at heq
                simp [BerthFileSystemProvider.stackNameOf] at heq
                simp [ho, hn, heq]
        have hres : BerthFileSystemProvider.renameAtPath env o n =
            (.error (.generic
              "Failed to rename/move: Cannot move files between different servers or stacks"),
              []) := by
          simp only [BerthFileSystemProvider.renameAtPath, hp]
          rw [if_neg hsz, if_pos hcross]
        rw [hre, hres]
        exact ⟨⟨rfl, rfl⟩, fun _ _ _ _ _ => rfl⟩
  · have hA' : BerthFileSystemProvider.isAuthenticated env = false := by
      simpa using hA
    have hres : BerthFileSystemProvider.rename env o n =
        (.error (.Unavailable "Not authenticated to Berth server"), []) := by
      simp [BerthFileSystemProvider.rename, hA']
    rw [hres]
    exact ⟨⟨rfl, rfl⟩, fun hAt => absurd hAt hA⟩

/-- Witness for C4: renaming `berth://7/web/a.txt` to `berth://7/db/a.txt`
(same server, different stack) in an authenticated environment yields the
cross-domain error and no client call. -/
theorem rename_cross_domain_rejected_before_network_witness :
    BerthFileSystemProvider.rename envAuthed ⟨"7", "/web/a.txt"⟩
        ⟨"7", "/db/a.txt"⟩ =
      (.error (.generic
        "Failed to rename/move: Cannot move files between different servers or stacks"),
        []) := by
  exact (rename_cross_domain_rejected_before_network envAuthed
    ⟨"7", "/web/a.txt"⟩ ⟨"7", "/db/a.txt"⟩ (by right; decide)).2 rfl
    (by decide) (by decide) 7 (by decide)

/-- C6 counterexample: the authority `"-5"` does not parse as a non-negative
decimal integer, yet `readFile` on the URI with authority `-5` and path
`/web/file.txt` is not rejected:
it succeeds and issues two client calls (the claim requires a fatal
`invalid server id` rejection before any network call). -/
theorem negative_authority_not_rejected :
    BerthFileSystemProvider.readFile envAuthed ⟨"-5", "/web/file.txt"⟩ =
      (.ok [0x48, 0x69],
        [.listDirectory (-5) "web" none, .readFile (-5) "web" "file.txt"]) ∧
    ([.listDirectory (-5) "web" none,
      .readFile (-5) "web" "file.txt"] : List NetCall) ≠ [] := by
  exact ⟨by decide, by decide⟩

/-- C6 (amended): an operation is rejected with the `Invalid server ID in
URI` error, synchronously and with no network call, exactly in the cases
where JavaScript `parseInt` yields `NaN` on the authority; authorities such
as `"-5"` or `"12abc"` parse and are not rejected. Here: the `parseInt = NaN`
direction for `readFile` and `writeFile` on URIs with a stack and a path. -/
theorem unparsable_authority_rejected_before_network
    (env : Env) (uri : Uri) (content : List Nat)
    (hauth : BerthFileSystemProvider.isAuthenticated env = true)
    (hlen : 2 ≤ (splitPath uri.path).length)
    (hparse : jsParseInt uri.authority = none) :
    BerthFileSystemProvider.readFile env uri =
      (.error (.generic "Failed to load file: Invalid server ID in URI"),
        []) ∧
    BerthFileSystemProvider.writeFile env uri content =
      (.error (.generic "Failed to save file: Invalid server ID in URI"),
        []) := by
  have h1 : ¬ ((splitPath uri.path).length < 2) := by omega
  constructor
  · simp [BerthFileSystemProvider.readFile,
      BerthFileSystemProvider.readFileContent, hauth, h1, hparse]
  · simp [BerthFileSystemProvider.writeFile,
      BerthFileSystemProvider.writeFileContent, hauth, h1, hparse]

/-- Witness for the amended C6 at the unparsable authority `"abc"`. -/
theorem unparsable_authority_rejected_before_network_witness :
    BerthFileSystemProvider.readFile envAuthed ⟨"abc", "/web/file.txt"⟩ =
      (.error (.generic "Failed to load file: Invalid server ID in URI"),
        []) := by
  exact (unparsable_authority_rejected_before_network envAuthed
    ⟨"abc", "/web/file.txt"⟩ [] (by decide) (by decide) (by decide)).1

/-- C1 counterexample: against a stable backend (the `readFile` response is
exactly the string `writeFileContent` sent), writing the single byte `0xFF`
(not valid UTF-8) and reading it back yields `EF BF BD` (the UTF-8 encoding
of U+FFFD), not the original byte: the adapter pipes bytes through
`TextDecoder`/`TextEncoder`, it does not pass them through untouched. -/
theorem write_then_read_alters_non_utf8_bytes :
    BerthFileSystemProvider.writeFile envBin ⟨"7", "/web/a.bin"⟩ [0xFF] =
      (.ok (), [.writeFile 7 "web" "a.bin" [0xFFFD]]) ∧
    envBin.readFile 7 "web" "a.bin" =
      .ok { path := "a.bin", content := [0xFFFD], encoding := "utf-8",
            size := 1 } ∧
    (BerthFileSystemProvider.readFile envBin ⟨"7", "/web/a.bin"⟩).1 =
      .ok [0xEF, 0xBF, 0xBD] ∧
    ([0xEF, 0xBF, 0xBD] : List Nat) ≠ [0xFF] := by
  exact ⟨by decide, by decide, by decide, by decide⟩

/-- C1 (amended): `writeFileContent` sends `TextDecoder().decode(bytes)` and
`readFileContent` returns `TextEncoder().encode(content)`, so against a
stable backend the round-trip returns `utf8Encode (utf8Decode bytes)` — which
is byte-identical to the payload exactly when the payload is a valid UTF-8
encoding; non-UTF-8 payloads are altered (invalid sequences become U+FFFD). -/
theorem write_then_read_roundtrip_via_utf8
    (env : Env) (uri : Uri) (serverId : Int) (bytes : List Nat)
    (listing : DirectoryListing) (entry : FileEntry) (fc : FileContent)
    (hauth : BerthFileSystemProvider.isAuthenticated env = true)
    (hlen : 2 ≤ (splitPath uri.path).length)
    (hparse : jsParseInt uri.authority = some serverId)
    (hw : env.writeFile serverId
      (BerthFileSystemProvider.stackNameOf (splitPath uri.path))
      (BerthFileSystemProvider.relPathOf (splitPath uri.path))
      (utf8Decode bytes) = .ok ())
    (hlist : env.listDirectory serverId
      (BerthFileSystemProvider.stackNameOf (splitPath uri.path))
      (BerthFileSystemProvider.parentArgOf (splitPath uri.path)) =
      .ok listing)
    (hfind : listing.entries.find?
      (fun e => e.name ==
        BerthFileSystemProvider.fileNameOf (splitPath uri.path)) =
      some entry)
    (hdir : entry.isDirectory = false)
    (hread : env.readFile serverId
      (BerthFileSystemProvider.stackNameOf (splitPath uri.path))
      (BerthFileSystemProvider.relPathOf (splitPath uri.path)) = .ok fc)
    (hstable : fc.content = utf8Decode bytes) :
    BerthFileSystemProvider.writeFile env uri bytes =
      (.ok (), [.writeFile serverId
        (BerthFileSystemProvider.stackNameOf (splitPath uri.path))
        (BerthFileSystemProvider.relPathOf (splitPath uri.path))
        (utf8Decode bytes)]) ∧
    (BerthFileSystemProvider.readFile env uri).1 =
      .ok (utf8Encode (utf8Decode bytes)) ∧
    (∀ t, (∀ c ∈ t, IsValidScalar c) → bytes = utf8Encode t →
      (BerthFileSystemProvider.readFile env uri).1 = .ok bytes) := by
  have h1 : ¬ ((splitPath uri.path).length < 2) := by omega
  have h2 : ¬ ((splitPath uri.path).length < 1) := by omega
  have h3 : (splitPath uri.path).length ≠ 1 := by omega
  have hwmain : BerthFileSystemProvider.writeFile env uri bytes =
      (.ok (), [.writeFile serverId
        (BerthFileSystemProvider.stackNameOf (splitPath uri.path))
        (BerthFileSystemProvider.relPathOf (splitPath uri.path))
        (utf8Decode bytes)]) := by
    simp [BerthFileSystemProvider.writeFile,
      BerthFileSystemProvider.writeFileContent, hauth, h1, hparse, hw]
  have hstat : BerthFileSystemProvider.getFileStat env uri =
      (.ok ⟨.File, env.parseDate entry.modTime, env.parseDate entry.modTime,
        entry.size⟩,
        [.listDirectory serverId
          (BerthFileSystemProvider.stackNameOf (splitPath uri.path))
          (BerthFileSystemProvider.parentArgOf (splitPath uri.path))]) := by
    simp [BerthFileSystemProvider.getFileStat, h2, h3, hparse, hlist, hfind,
      hdir]
  have hrmain : (BerthFileSystemProvider.readFile env uri).1 =
      .ok (utf8Encode (utf8Decode bytes)) := by
    simp [BerthFileSystemProvider.readFile,
      BerthFileSystemProvider.readFileContent, hauth, h1, hparse, hstat,
      hread, hstable]
  refine ⟨hwmain, hrmain, fun t hvalid hbytes => ?_⟩
  have hdec : utf8Decode bytes = t := by
    rw [hbytes, utf8Decode_utf8Encode t hvalid]
  rw [hrmain, hdec, hbytes]

/-- Witness for the amended C1: the two-byte UTF-8 payload `C3 A9` (`é`)
round-trips byte-identically through `envUtf8`'s stable backend. -/
theorem write_then_read_roundtrip_via_utf8_witness :
    BerthFileSystemProvider.writeFile envUtf8 ⟨"7", "/web/e.txt"⟩
        [0xC3, 0xA9] =
      (.ok (), [.writeFile 7 "web" "e.txt" [0xE9]]) ∧
    (BerthFileSystemProvider.readFile envUtf8 ⟨"7", "/web/e.txt"⟩).1 =
      .ok [0xC3, 0xA9] := by
  have h := write_then_read_roundtrip_via_utf8 envUtf8 ⟨"7", "/web/e.txt"⟩ 7
    [0xC3, 0xA9] { path := "", entries := [entryETxt] } entryETxt
    { path := "e.txt", content := utf8Decode [0xC3, 0xA9],
      encoding := "utf-8", size := 2 }
    (by decide) (by decide) (by decide) (by decide) (by decide) (by decide)
    (by decide) (by decide) (by decide)
  exact ⟨by simpa using h.1,
    h.2.2 [0xE9] (by intro c hc; simp at hc; rw [hc]; decide) (by decide)⟩

/-- Deleting a key removes it from the storage. -/
theorem storageGet_storageDelete_self (s : AuthService.Storage) (k : String) :
    AuthService.storageGet (AuthService.storageDelete s k) k = none := by
  induction s with
  | nil => rfl
  | cons kv t ih =>
    by_cases h : kv.1 = k
    · simpa [AuthService.storageDelete, h] using ih
    · simpa [AuthService.storageDelete, AuthService.storageGet, h] using ih

/-- Deleting one key leaves the others unchanged. -/
theorem storageGet_storageDelete_ne (s : AuthService.Storage)
    (k k' : String) (h : k ≠ k') :
    AuthService.storageGet (AuthService.storageDelete s k') k =
      AuthService.storageGet s k := by
  induction s with
  | nil => rfl
  | cons kv t ih =>
    by_cases h1 : kv.1 = k'
    · have e1 : AuthService.storageDelete (kv :: t) k' =
          AuthService.storageDelete t k' := by
        simp [AuthService.storageDelete, h1]
      have hne : (kv.1 == k) = false := by
        simp [h1]
        exact Ne.symm h
      have e2 : AuthService.storageGet (kv :: t) k =
          AuthService.storageGet t k := by
        simp [AuthService.storageGet, List.find?, hne]
      rw [e1, ih, e2]
    · have e1 : AuthService.storageDelete (kv :: t) k' =
          kv :: AuthService.storageDelete t k' := by
        simp [AuthService.storageDelete, h1]
      rw [e1]
      by_cases h2 : kv.1 = k
      · have hpos : (kv.1 == k) = true := by simp [h2]
        have e2 : ∀ X : AuthService.Storage,
            AuthService.storageGet (kv :: X) k = some kv.2 := by
          intro X
          simp [AuthService.storageGet, List.find?, hpos]
        rw [e2, e2]
      · have hne : (kv.1 == k) = false := by simp [h2]
        have e2 : ∀ X : AuthService.Storage,
            AuthService.storageGet (kv :: X) k =
              AuthService.storageGet X k := by
          intro X
          simp [AuthService.storageGet, List.find?, hne]
        rw [e2, e2, ih]

/-- C7: `logout()` always clears the in-memory user and tokens, deletes the
three persisted secure-storage entries, and resets the `berth.authenticated`
context flag — also when the server-side invalidation call fails
(`serverCallFails = true`), whose outcome the `catch` block ignores. -/
theorem logout_always_clears_session
    (st : AuthService.AuthState) (serverCallFails : Bool) :
    (AuthService.logout st serverCallFails).1.currentUser = none ∧
    (AuthService.logout st serverCallFails).1.accessToken = none ∧
    (AuthService.logout st serverCallFails).1.refreshToken = none ∧
    AuthService.storageGet (AuthService.logout st serverCallFails).1.storage
      AuthService.ACCESS_TOKEN_KEY = none ∧
    AuthService.storageGet (AuthService.logout st serverCallFails).1.storage
      AuthService.REFRESH_TOKEN_KEY = none ∧
    AuthService.storageGet (AuthService.logout st serverCallFails).1.storage
      AuthService.USER_KEY = none ∧
    (AuthService.logout st serverCallFails).1.contextAuthenticated = false := by
  refine ⟨rfl, rfl, rfl, ?_, ?_, ?_, rfl⟩
  · show AuthService.storageGet
      (AuthService.storageDelete
        (AuthService.storageDelete
          (AuthService.storageDelete st.storage AuthService.ACCESS_TOKEN_KEY)
          AuthService.REFRESH_TOKEN_KEY) AuthService.USER_KEY)
      AuthService.ACCESS_TOKEN_KEY = none
    rw [storageGet_storageDelete_ne _ _ _ (by decide),
      storageGet_storageDelete_ne _ _ _ (by decide),
      storageGet_storageDelete_self]
  · show AuthService.storageGet
      (AuthService.storageDelete
        (AuthService.storageDelete
          (AuthService.storageDelete st.storage AuthService.ACCESS_TOKEN_KEY)
          AuthService.REFRESH_TOKEN_KEY) AuthService.USER_KEY)
      AuthService.REFRESH_TOKEN_KEY = none
    rw [storageGet_storageDelete_ne _ _ _ (by decide),
      storageGet_storageDelete_self]
  · show AuthService.storageGet
      (AuthService.storageDelete
        (AuthService.storageDelete
          (AuthService.storageDelete st.storage AuthService.ACCESS_TOKEN_KEY)
          AuthService.REFRESH_TOKEN_KEY) AuthService.USER_KEY)
      AuthService.USER_KEY = none
    rw [storageGet_storageDelete_self]

/-- C8: `listDirectory` normalizes every raw entry, and the per-entry
defaults are: missing `is_directory` → `false`, missing `size` → `0`,
missing `mode` → `"0644"`, missing `mod_time` → the current timestamp,
missing `name`/`path` → `""`. -/
theorem listDirectory_normalizes_with_defaults
    (nowISO : String) (fmt : Nat → String) (raw : RawListing)
    (e : RawFileEntry) :
    (FilesService.listDirectory nowISO fmt (some raw)).entries =
      (raw.entries.getD []).map (FilesService.normalizeEntry nowISO fmt) ∧
    (e.is_directory = none →
      (FilesService.normalizeEntry nowISO fmt e).isDirectory = false) ∧
    (e.size = none → (FilesService.normalizeEntry nowISO fmt e).size = 0) ∧
    (e.mode = none →
      (FilesService.normalizeEntry nowISO fmt e).mode = "0644") ∧
    (e.mod_time = none →
      (FilesService.normalizeEntry nowISO fmt e).modTime = nowISO) ∧
    (e.name = none → (FilesService.normalizeEntry nowISO fmt e).name = "") ∧
    (e.path = none → (FilesService.normalizeEntry nowISO fmt e).path = "") := by
  refine ⟨rfl, ?_, ?_, ?_, ?_, ?_, ?_⟩ <;> intro h <;>
    simp [FilesService.normalizeEntry, jsOrStr, jsOrNat, h]

/-- Witness for C8: a raw entry with every field absent normalizes to the
default file entry. -/
theorem listDirectory_normalizes_with_defaults_witness :
    (FilesService.normalizeEntry "2024-01-01T00:00:00Z" (fun _ => "0 B")
      ⟨none, none, none, none, none, none, none, none, none, none⟩).isDirectory
      = false ∧
    (FilesService.normalizeEntry "2024-01-01T00:00:00Z" (fun _ => "0 B")
      ⟨none, none, none, none, none, none, none, none, none, none⟩).size = 0 ∧
    (FilesService.normalizeEntry "2024-01-01T00:00:00Z" (fun _ => "0 B")
      ⟨none, none, none, none, none, none, none, none, none, none⟩).mode =
      "0644" ∧
    (FilesService.normalizeEntry "2024-01-01T00:00:00Z" (fun _ => "0 B")
      ⟨none, none, none, none, none, none, none, none, none, none⟩).modTime =
      "2024-01-01T00:00:00Z" := by
  have h := listDirectory_normalizes_with_defaults "2024-01-01T00:00:00Z"
    (fun _ => "0 B") ⟨none, none⟩
    ⟨none, none, none, none, none, none, none, none, none, none⟩
  exact ⟨h.2.1 rfl, h.2.2.1 rfl, h.2.2.2.1 rfl, h.2.2.2.2.1 rfl⟩

/-- C9 counterexample: `BerthTreeDataProvider.setCurrentServer` is a code
path that sets the current server but does not reset the current stack:
after switching from `serverAlpha` to `serverBeta` the stale stack of
`serverAlpha` survives. -/
theorem berth_setCurrentServer_keeps_stale_stack :
    (BerthTreeDataProvider.setCurrentServer
      { currentServer := some serverAlpha, currentStack := some stackWeb }
      (some serverBeta)).currentStack = some stackWeb ∧
    some stackWeb ≠ (none : Option Stack) := by
  exact ⟨rfl, by decide⟩

/-- C9 (amended): `StackTreeDataProvider.setCurrentServer` always resets the
current stack to null, and the `selectServer` command resets it via an
explicit `setCurrentStack(null)` after `setCurrentServer`; but
`BerthTreeDataProvider.setCurrentServer` by itself leaves the current stack
unchanged — there the reset depends on the caller. -/
theorem setCurrentServer_stack_reset_per_path
    (stS : StackTreeDataProvider.State) (stB : BerthTreeDataProvider.State)
    (server : Server) (serverOpt : Option Server) :
    (StackTreeDataProvider.setCurrentServer stS server).currentStack = none ∧
    (AuthCommands.selectServerUpdate stB server).currentStack = none ∧
    (BerthTreeDataProvider.setCurrentServer stB serverOpt).currentStack =
      stB.currentStack := by
  exact ⟨rfl, rfl, rfl⟩
